/-
Verification of the nearcore client and cold-storage adapter against its
natural-language specification.

The definitions below are a shallow embedding of the Rust sources
  chain/client/src/client.rs   (block/chunk production, block ingress,
                                approval ingress, transaction ingress)
  core/store/src/db/colddb.rs  (cold-storage adapter)
Machine integers are modelled as Nat (heights, shard ids) and bytes as
Nat values below 256.  Fallible Rust calls returning Result are modelled
with Except; calls into collaborator components (chain store, epoch
manager / runtime adapter, Doomslug) are modelled as fields of an
environment structure holding the value the collaborator returns during
the call under scrutiny.
-/
import Mathlib

set_option autoImplicit false

namespace Near

/-- Account identifiers, abstract. -/
abbrev AccountId := Nat
/-- Block hashes, abstract. -/
abbrev Hash := Nat
/-- Epoch identifiers, abstract. -/
abbrev EpochId := Nat
/-- Signatures, abstract. -/
abbrev Sig := Nat
/-- Public keys, abstract. -/
abbrev PubKey := Nat

/-- Chain tip, from near_primitives::block::Tip. -/
structure Tip where
  height : Nat
  last_block_hash : Hash
  prev_block_hash : Hash
  epoch_id : EpochId
  next_epoch_id : EpochId
  deriving Repr, DecidableEq

/- ------------------------------------------------------------------ -/
/- check_block_height (client.rs lines 927-958) and BLOCK_HORIZON     -/
/- ------------------------------------------------------------------ -/

/-- Drop blocks whose height are beyond head + horizon (client.rs line 71). -/
def BLOCK_HORIZON : Nat := 500

/-- Client::check_block_height (client.rs 927-958).  The store reads
(head, tail, is_height_processed) are passed in as values; the function
returns the decision bit.  `prev_hash_eq_head` stands for the comparison
of the block's prev_hash with the current head's last_block_hash. -/
def check_block_height (head_height tail block_height : Nat)
    (is_syncing was_requested prev_hash_eq_head height_processed : Bool) : Bool :=
  if block_height ≥ head_height + BLOCK_HORIZON && is_syncing && !was_requested then
    false
  else if block_height < tail then
    false
  else if !was_requested && !prev_hash_eq_head && height_processed then
    false
  else
    true

/- ------------------------------------------------------------------ -/
/- rebroadcast_block (client.rs 1125-1135) and its 30-entry LRU       -/
/- ------------------------------------------------------------------ -/

/-- Capacity of the rebroadcasted-blocks cache (client.rs line 61). -/
def NUM_REBROADCAST_BLOCKS : Nat := 30

/-- The lru crate's LruCache::get for a unit-valued cache: the state is the
list of keys, most recently used first.  A hit refreshes the entry's
recency. -/
def lru_get (s : List Hash) (h : Hash) : Bool × List Hash :=
  if h ∈ s then (true, h :: s.erase h) else (false, s)

/-- The lru crate's LruCache::put for a unit-valued cache of capacity
`cap`: the key becomes most recently used and the least recently used
entry is evicted if the cache would exceed its capacity. -/
def lru_put (s : List Hash) (h : Hash) (cap : Nat) : List Hash :=
  (h :: s.erase h).take cap

/-- Client::rebroadcast_block (client.rs 1125-1135).  Returns whether the
block was sent to the network, together with the new cache state. -/
def rebroadcast_block (s : List Hash) (h : Hash) : Bool × List Hash :=
  match lru_get s h with
  | (true, s') => (false, s')
  | (false, s') => (true, lru_put s' h NUM_REBROADCAST_BLOCKS)

/-- Sent flags of a sequence of rebroadcast_block calls starting from
cache state s. -/
def rebroadcast_sends (s : List Hash) : List Hash → List Bool
  | [] => []
  | h :: hs => (rebroadcast_block s h).1 :: rebroadcast_sends (rebroadcast_block s h).2 hs

/-- Cache states seen by each call of a sequence of rebroadcast_block
calls starting from cache state s (the state the call observes). -/
def rebroadcast_states (s : List Hash) : List Hash → List (List Hash)
  | [] => []
  | h :: hs => s :: rebroadcast_states (rebroadcast_block s h).2 hs

/- ------------------------------------------------------------------ -/
/- produce_block (client.rs 431-651) and its helpers                  -/
/- ------------------------------------------------------------------ -/

/-- HashMap::remove on the Doomslug witness map (signer to signature;
the source stores (Approval, _) pairs and projects .0.signature, here the
stored value is that projection).  Returns the removed value and the map
without it. -/
def witness_remove : List (AccountId × Sig) → AccountId → Option Sig × List (AccountId × Sig)
  | [], _ => (none, [])
  | (k, v) :: rest, a =>
    if k = a then (some v, rest)
    else
      let r := witness_remove rest a
      (r.1, (k, v) :: r.2)

/-- The approvals-vector computation of Client::produce_block (client.rs
516-527): map over the ordered approver stakes, slashed approvers give
None, others draw (remove) their signature from the Doomslug witness map.
Returns the approvals vector together with the drained witness map. -/
def compute_approvals : List (AccountId × Bool) → List (AccountId × Sig) →
    List (Option Sig) × List (AccountId × Sig)
  | [], m => ([], m)
  | (account_id, is_slashed) :: rest, m =>
    if is_slashed then
      let r := compute_approvals rest m
      (none :: r.1, r.2)
    else
      let rm := witness_remove m account_id
      let r := compute_approvals rest rm.2
      (rm.1 :: r.1, r.2)

/-- Block header fields read by produce_block and
check_and_update_doomslug_tip.  CryptoHash::default() is hash 0. -/
structure BlockHeaderM where
  height : Nat
  hash : Hash
  prev_hash : Hash
  epoch_id : EpochId
  next_bp_hash : Hash
  last_final_block : Hash
  deriving Repr, DecidableEq

/-- Chunk header fields relevant to block assembly. -/
structure ChunkHeaderM where
  shard_id : Nat
  height_included : Nat
  deriving Repr, DecidableEq

/-- The produced block, restricted to the fields the specification's
claims quantify over. -/
structure BlockM where
  height : Nat
  approvals : List (Option Sig)
  chunks : List ChunkHeaderM
  deriving Repr, DecidableEq

/-- Errors of near_client_primitives::types::Error reachable from
produce_block / produce_chunk: Error::BlockProducer and
Error::ChunkProducer for signer / precondition problems, db for an error
propagated from the store / epoch manager / chain.  The source's panics
(expect / assert / protocol-version check) are kept apart in PBOutcome. -/
inductive ClientErr where
  | blockProducer
  | chunkProducer
  | db (code : Nat)
  deriving Repr, DecidableEq

/-- Outcome of produce_block: Ok(Some _), Ok(None), Err(_), or a panic
(assertion / expect / outdated-protocol abort). -/
inductive PBOutcome where
  | ok (b : Option BlockM)
  | err (e : ClientErr)
  | panic
  deriving Repr, DecidableEq

/-- Environment of one produce_block call: every value the call obtains
from collaborators (store, epoch manager, Doomslug) or from
configuration.  Fallible collaborator calls are Except-valued with a Nat
error code.  Fields whose source call takes the head's last_block_hash
(or data derived from it) as argument are plain values since the
argument is fixed within the call. -/
structure ProduceBlockEnv where
  /-- validator_signer field (the validator id it signs with). -/
  validator_signer : Option AccountId
  /-- validator_signer.public_key(). -/
  signer_public_key : PubKey
  /-- whether chain.store().get_latest_known() succeeds (its height is the
  explicit store state threaded through produce_block). -/
  get_latest_known_ok : Bool
  /-- chain.head(). -/
  head : Except Nat Tip
  /-- runtime_adapter.get_epoch_id_from_prev_block(head.last_block_hash),
  called with unwrap / expect in the source. -/
  epoch_id_from_prev_block : EpochId
  /-- runtime_adapter.get_block_producer(epoch_id, next_height). -/
  get_block_producer : Except Nat AccountId
  /-- chain.get_block_header(head.last_block_hash). -/
  get_block_header : Except Nat BlockHeaderM
  /-- doomslug.get_tip().0, compared against the head inside
  check_and_update_doomslug_tip. -/
  doomslug_tip_hash : Hash
  /-- chain.get_block_header(last_final_hash) inside
  check_and_update_doomslug_tip (client.rs 1195). -/
  get_block_header_last_final : Except Nat BlockHeaderM
  /-- chain.genesis().height(). -/
  genesis_height : Nat
  /-- runtime_adapter.is_next_block_epoch_start(head.last_block_hash). -/
  is_next_block_epoch_start : Except Nat Bool
  /-- chain.prev_block_is_caught_up(prev_prev_hash, prev_hash). -/
  prev_block_is_caught_up : Except Nat Bool
  /-- runtime_adapter.get_validator_by_account_id(epoch_id, last_block_hash,
  next_block_proposer): the validator's public key (the slashed bit is
  ignored by produce_block). -/
  get_validator_by_account_id : Except Nat PubKey
  /-- get_chunk_headers_ready_for_inclusion(prev_hash): shard id to chunk
  header (the readiness cache entry; arrival times dropped). -/
  chunk_headers_ready_for_inclusion : List (Nat × ChunkHeaderM)
  /-- config.produce_empty_blocks. -/
  produce_empty_blocks : Bool
  /-- doomslug.get_witness(prev_hash, prev_height, next_height), the
  signer-to-signature map (values projected through .0.signature). -/
  get_witness : List (AccountId × Sig)
  /-- runtime_adapter.get_epoch_protocol_version(epoch_id): first used
  through expect (panic on error), then through question-mark. -/
  get_epoch_protocol_version : Except Nat Nat
  /-- the binary's PROTOCOL_VERSION constant. -/
  client_protocol_version : Nat
  /-- runtime_adapter.get_epoch_block_approvers_ordered(prev_hash):
  canonical approver order with the slashed flag. -/
  get_epoch_block_approvers_ordered : Except Nat (List (AccountId × Bool))
  /-- runtime_adapter.get_next_epoch_id_from_prev_block(last_block_hash):
  used once through expect and once through question-mark. -/
  get_next_epoch_id_from_prev_block : Except Nat EpochId
  /-- Chain::compute_bp_hash(..) when crossing an epoch. -/
  compute_bp_hash : Except Nat Hash
  /-- chain.store().get_block_merkle_tree(prev_hash): the tree's size. -/
  get_block_merkle_tree : Except Nat Nat
  /-- chain.get_block_extra(prev_hash) (only its success matters here). -/
  get_block_extra : Except Nat Unit
  /-- chain.get_block(prev_hash) (only its success matters here). -/
  get_block : Except Nat Unit
  /-- Chain::get_prev_chunk_headers(runtime_adapter, prev_block): one slot
  per shard carrying the previous chunk header. -/
  get_prev_chunk_headers : Except Nat (List ChunkHeaderM)
  /-- BlockProductionTracker::construct_chunk_collection_info (fallible,
  result only recorded for debug). -/
  construct_chunk_collection_info : Except Nat Unit
  /-- runtime_adapter.get_epoch_minted_amount(next_epoch_id). -/
  get_epoch_minted_amount : Except Nat Nat
  /-- runtime_adapter.get_epoch_sync_data_hash(..). -/
  get_epoch_sync_data_hash : Except Nat (Option Hash)
  /-- get_epoch_protocol_version(next_epoch_id) (line 616). -/
  get_next_epoch_protocol_version : Except Nat Nat
  /-- whether chain.mut_store().save_latest_known(..) succeeds. -/
  save_latest_known_ok : Bool

/-- Client::known_block_height (client.rs 338-348), without the
test_features branch. -/
def known_block_height (next_height known_height : Nat) : Bool :=
  next_height ≤ known_height

/-- Client::is_me_block_producer (client.rs 350-367), without the
test_features branches. -/
def is_me_block_producer (account_id next_block_proposer : AccountId) : Bool :=
  account_id = next_block_proposer

/-- Client::should_reschedule_block (client.rs 369-410). -/
def should_reschedule_block (env : ProduceBlockEnv)
    (next_height known_height : Nat)
    (account_id next_block_proposer : AccountId) : Except Nat Bool :=
  if known_block_height next_height known_height then .ok true
  else if !is_me_block_producer account_id next_block_proposer then .ok true
  else
    match env.is_next_block_epoch_start with
    | .error e => .error e
    | .ok true =>
      match env.prev_block_is_caught_up with
      | .error e => .error e
      | .ok caught_up => .ok (!caught_up)
    | .ok false => .ok false

/-- Client::check_and_update_doomslug_tip (client.rs 1185-1206): when
the head hash differs from Doomslug's tip, re-read the head's header,
resolve the last-final height (genesis height for the default hash,
otherwise the final block header's height) and set the Doomslug tip.
Each question-mark read can fail and the failure propagates out of
produce_block (client.rs 461).  The set_tip mutation itself is absorbed
into the get_witness environment value. -/
def check_and_update_doomslug_tip (env : ProduceBlockEnv) : Except Nat Unit :=
  match env.head with
  | .error e => .error e
  | .ok tip =>
    if tip.last_block_hash ≠ env.doomslug_tip_hash then
      match env.get_block_header with
      | .error e => .error e
      | .ok header =>
        let last_final_hash := header.last_final_block
        if last_final_hash = 0 then
          -- last_final_height := genesis height
          .ok ()
        else
          match env.get_block_header_last_final with
          | .error e => .error e
          | .ok _final_header => .ok ()
    else .ok ()

/-- Tag for the panics reachable from produce_block (expect on epoch
lookups, the protocol-version abort): folded into the Except error type
of the inner computation and split out again in produce_block. -/
inductive PBStop where
  | err (e : ClientErr)
  | panic
  deriving Repr, DecidableEq

/-- The chunk slots of the block under assembly: start from the previous
block's chunk headers, and for each ready new chunk set height_included
to next_height and place it in its shard's slot (client.rs 583-586). -/
def collect_new_chunks (new_chunks : List (Nat × ChunkHeaderM))
    (chunks0 : List ChunkHeaderM) (next_height : Nat) : List ChunkHeaderM :=
  new_chunks.foldl
    (fun cs sc => cs.set sc.1 { sc.2 with height_included := next_height }) chunks0

/-- Client::produce_block (client.rs 431-651) as a computation over the
environment; st is the height stored in LatestKnown when the call
starts (the source reads it first, line 433).  Every match on an
Except-valued field mirrors a question-mark propagation; expect/unwrap
panics and the outdated-protocol abort become .panic. -/
def produce_block_inner (st : Nat) (env : ProduceBlockEnv) (next_height : Nat) :
    Except PBStop (Option BlockM) :=
  if !env.get_latest_known_ok then .error (.err (.db 0)) else
  match env.validator_signer with
  | none => .error (.err .blockProducer)
  | some validator_id =>
  match env.head with
  | .error e => .error (.err (.db e))
  | .ok _head =>
  match env.get_block_producer with
  | .error e => .error (.err (.db e))
  | .ok next_block_proposer =>
  match env.get_block_header with
  | .error e => .error (.err (.db e))
  | .ok prev =>
  match check_and_update_doomslug_tip env with
  | .error e => .error (.err (.db e))
  | .ok _ =>
  match should_reschedule_block env next_height st validator_id next_block_proposer with
  | .error e => .error (.err (.db e))
  | .ok true => .ok none
  | .ok false =>
  match env.get_validator_by_account_id with
  | .error e => .error (.err (.db e))
  | .ok validator_pk =>
  if validator_pk ≠ env.signer_public_key then .ok none else
  if !env.produce_empty_blocks && env.chunk_headers_ready_for_inclusion.isEmpty then
    .ok none else
  match env.get_epoch_protocol_version with
  | .error _ => .error .panic
  | .ok protocol_version =>
  if env.client_protocol_version < protocol_version then .error .panic else
  match env.get_epoch_block_approvers_ordered with
  | .error e => .error (.err (.db e))
  | .ok approver_stakes =>
  match env.get_next_epoch_id_from_prev_block with
  | .error _ => .error .panic
  | .ok _next_epoch_id =>
  match env.get_epoch_protocol_version with
  | .error e => .error (.err (.db e))
  | .ok _protocol_version2 =>
  match (if prev.epoch_id ≠ env.epoch_id_from_prev_block
      then env.compute_bp_hash else .ok prev.next_bp_hash) with
  | .error e => .error (.err (.db e))
  | .ok _next_bp_hash =>
  match env.get_block_merkle_tree with
  | .error e => .error (.err (.db e))
  | .ok _tree_size =>
  match env.get_block_extra with
  | .error e => .error (.err (.db e))
  | .ok _prev_block_extra =>
  match env.get_block with
  | .error e => .error (.err (.db e))
  | .ok _prev_block =>
  match env.get_prev_chunk_headers with
  | .error e => .error (.err (.db e))
  | .ok chunks0 =>
  match env.construct_chunk_collection_info with
  | .error e => .error (.err (.db e))
  | .ok _info =>
  match env.get_next_epoch_id_from_prev_block with
  | .error e => .error (.err (.db e))
  | .ok _next_epoch_id2 =>
  match env.is_next_block_epoch_start with
  | .error e => .error (.err (.db e))
  | .ok epoch_start =>
  match (if epoch_start
      then (env.get_epoch_minted_amount).map Option.some else .ok none) with
  | .error e => .error (.err (.db e))
  | .ok _minted_amount =>
  match env.is_next_block_epoch_start with
  | .error e => .error (.err (.db e))
  | .ok epoch_start2 =>
  match (if epoch_start2
      then (env.get_epoch_sync_data_hash).map Option.some else .ok none) with
  | .error e => .error (.err (.db e))
  | .ok _epoch_sync_data_hash =>
  match env.get_epoch_protocol_version with
  | .error e => .error (.err (.db e))
  | .ok _this_epoch_protocol_version =>
  match env.get_next_epoch_protocol_version with
  | .error e => .error (.err (.db e))
  | .ok _next_epoch_protocol_version =>
  if !env.save_latest_known_ok then .error (.err (.db 1)) else
  .ok (some
    { height := next_height
      approvals := (compute_approvals approver_stakes env.get_witness).1
      chunks := collect_new_chunks env.chunk_headers_ready_for_inclusion chunks0 next_height })

/-- Client::produce_block together with the LatestKnown height stored by
its save_latest_known call: the second component is the stored height
after the call (it is updated, to next_height, exactly on the successful
Ok(Some _) path, before the block is returned). -/
def produce_block (st : Nat) (env : ProduceBlockEnv) (next_height : Nat) :
    PBOutcome × Nat :=
  match produce_block_inner st env next_height with
  | .ok (some b) => (.ok (some b), next_height)
  | .ok none => (.ok none, st)
  | .error (.err e) => (.err e, st)
  | .error .panic => (.panic, st)

/- ------------------------------------------------------------------ -/
/- produce_chunk (client.rs 653-772)                                  -/
/- ------------------------------------------------------------------ -/

/-- Environment of one produce_chunk call, for fixed arguments
(prev_block_hash, epoch_id, last_header, next_height, shard_id). -/
structure ProduceChunkEnv where
  /-- validator_signer field (the validator id). -/
  validator_signer : Option AccountId
  /-- runtime_adapter.get_chunk_producer(epoch_id, next_height, shard_id),
  unwrapped in the source. -/
  get_chunk_producer : AccountId
  /-- runtime_adapter.is_next_block_epoch_start(prev_block_hash). -/
  is_next_block_epoch_start : Except Nat Bool
  /-- chain.get_block_header(prev_block_hash). -/
  get_block_header : Except Nat BlockHeaderM
  /-- chain.prev_block_is_caught_up(prev_prev_hash, prev_block_hash). -/
  prev_block_is_caught_up : Except Nat Bool
  /-- runtime_adapter.shard_id_to_uid(shard_id, epoch_id). -/
  shard_id_to_uid : Except Nat Nat
  /-- chain.get_chunk_extra(prev_block_hash, shard_uid): its error is
  mapped onto Error::ChunkProducer by the source. -/
  get_chunk_extra : Except Nat Unit
  /-- Client::prepare_transactions(shard_id, chunk_extra, prev_block_header). -/
  prepare_transactions : Except Nat (List Nat)
  /-- chain.get_outgoing_receipts_for_shard(..). -/
  get_outgoing_receipts_for_shard : Except Nat (List Nat)
  /-- runtime_adapter.get_shard_layout(epoch_id). -/
  get_shard_layout : Except Nat Unit
  /-- runtime_adapter.get_epoch_protocol_version(epoch_id). -/
  get_epoch_protocol_version : Except Nat Nat
  /-- ShardsManager::create_encoded_shard_chunk(..). -/
  create_encoded_shard_chunk : Except Nat Unit

/-- Result data of produce_chunk: the encoded chunk with its merkle paths
is abstract, the outgoing receipts are kept. -/
structure ChunkProduced where
  outgoing_receipts : List Nat
  deriving Repr, DecidableEq

/-- The tail of Client::produce_chunk after the precondition checks
(client.rs 698-771): chunk extra (its error mapped to ChunkProducer),
transaction preparation, outgoing receipts, erasure encoding. -/
def produce_chunk_rest (env : ProduceChunkEnv) : Except ClientErr (Option ChunkProduced) :=
  match env.shard_id_to_uid with
  | .error e => .error (.db e)
  | .ok _shard_uid =>
  match env.get_chunk_extra with
  | .error _ => .error .chunkProducer
  | .ok _chunk_extra =>
  match env.get_block_header with
  | .error e => .error (.db e)
  | .ok _prev_block_header =>
  match env.prepare_transactions with
  | .error e => .error (.db e)
  | .ok _transactions =>
  match env.get_outgoing_receipts_for_shard with
  | .error e => .error (.db e)
  | .ok outgoing_receipts =>
  match env.get_shard_layout with
  | .error e => .error (.db e)
  | .ok _shard_layout =>
  match env.get_epoch_protocol_version with
  | .error e => .error (.db e)
  | .ok _protocol_version =>
  match env.create_encoded_shard_chunk with
  | .error e => .error (.db e)
  | .ok _encoded =>
  .ok (some { outgoing_receipts := outgoing_receipts })

/-- Client::produce_chunk (client.rs 653-772): a missing signer is a
ChunkProducer error; not being the elected chunk producer returns
Ok(None); an epoch-boundary next block whose previous-previous block is
not caught up is a ChunkProducer error. -/
def produce_chunk (env : ProduceChunkEnv) : Except ClientErr (Option ChunkProduced) :=
  match env.validator_signer with
  | none => .error .chunkProducer
  | some validator_id =>
  if validator_id ≠ env.get_chunk_producer then .ok none else
  match env.is_next_block_epoch_start with
  | .error e => .error (.db e)
  | .ok true =>
    match env.get_block_header with
    | .error e => .error (.db e)
    | .ok _prev_header =>
    match env.prev_block_is_caught_up with
    | .error e => .error (.db e)
    | .ok false => .error .chunkProducer
    | .ok true => produce_chunk_rest env
  | .ok false => produce_chunk_rest env

/- ------------------------------------------------------------------ -/
/- collect_block_approval (client.rs 1556-1701)                       -/
/- ------------------------------------------------------------------ -/

/-- near_chain errors relevant to approval processing. -/
inductive ChainErr where
  | notAValidator
  | dbNotFound
  | other (code : Nat)
  deriving Repr, DecidableEq

/-- ApprovalInner (endorsement of a parent hash or skip of a height). -/
inductive ApprovalInnerM where
  | endorsement (parent_hash : Hash)
  | skip (parent_height : Nat)
  deriving Repr, DecidableEq

/-- near_primitives::block::Approval. -/
structure ApprovalM where
  inner : ApprovalInnerM
  target_height : Nat
  account_id : AccountId
  signature : Sig
  deriving Repr, DecidableEq

/-- ApprovalType: produced locally or received from a peer. -/
inductive ApprovalTypeM where
  | selfApproval
  | peerApproval
  deriving Repr, DecidableEq

/-- What collect_block_approval did with the approval: dropped it,
parked it in pending_approvals, or delivered it to
Doomslug::on_approval_message. -/
inductive ApprovalOutcome where
  | dropped
  | parked
  | doomslug
  deriving Repr, DecidableEq

/-- Environment of one collect_block_approval call. -/
structure CollectApprovalEnv where
  /-- chain.get_block_header_by_height(parent_height) (Skip case). -/
  get_block_header_by_height : Except ChainErr Hash
  /-- runtime_adapter.get_epoch_id_from_prev_block(parent_hash). -/
  get_epoch_id_from_prev_block : Except ChainErr EpochId
  /-- runtime_adapter.get_validator_by_account_id(next_block_epoch_id,
  parent_hash, account_id) (only success/error kind matters). -/
  get_validator_by_account_id : Except ChainErr Unit
  /-- runtime_adapter.get_next_epoch_id_from_prev_block(parent_hash). -/
  get_next_epoch_id_from_prev_block : Except ChainErr EpochId
  /-- runtime_adapter.verify_validator_signature(validator_epoch_id, ..),
  as a function of the epoch id chosen for verification. -/
  verify_validator_signature : EpochId → Except ChainErr Bool
  /-- runtime_adapter.get_block_producer(next_block_epoch_id, target_height). -/
  get_block_producer : Except ChainErr AccountId
  /-- validator_signer validator id. -/
  me : Option AccountId
  /-- chain.get_block_header(parent_hash) (only success/error matters). -/
  get_block_header : Except ChainErr Unit
  /-- runtime_adapter.get_epoch_block_approvers_ordered(parent_hash). -/
  get_epoch_block_approvers_ordered : Except ChainErr (List (AccountId × Nat))
  /-- whether chain.head() succeeds inside handle_process_approval_error. -/
  head_ok : Bool
  /-- handle_process_approval_error's is_validator(head.epoch_id, ..). -/
  is_validator_head_epoch : Bool
  /-- handle_process_approval_error's is_validator(head.next_epoch_id, ..). -/
  is_validator_head_next_epoch : Bool

/-- Client::handle_process_approval_error (client.rs 1556-1593): park the
approval in pending_approvals on DBNotFoundErr (subject to the validator
membership check when check_validator is set), drop otherwise. -/
def handle_process_approval_error (env : CollectApprovalEnv)
    (check_validator : Bool) (error : ChainErr) : ApprovalOutcome :=
  match error with
  | .dbNotFound =>
    if check_validator then
      if !env.head_ok then .dropped
      else if !env.is_validator_head_epoch && !env.is_validator_head_next_epoch then
        .dropped
      else .parked
    else .parked
  | _ => .dropped

/-- Client::collect_block_approval (client.rs 1607-1701).  Returns what
happened to the approval together with the epoch id under which the
signature was verified (none when verification was not reached, e.g.
for a self approval). -/
def collect_block_approval (env : CollectApprovalEnv) (approval : ApprovalM)
    (approval_type : ApprovalTypeM) : ApprovalOutcome × Option EpochId :=
  -- resolve parent_hash
  let parent_hash_res : Except (ApprovalOutcome × Option EpochId) Hash :=
    match approval.inner with
    | .endorsement parent_hash => .ok parent_hash
    | .skip _ =>
      match env.get_block_header_by_height with
      | .ok hash => .ok hash
      | .error e => .error (handle_process_approval_error env true e, none)
  match parent_hash_res with
  | .error out => out
  | .ok _parent_hash =>
    match env.get_epoch_id_from_prev_block with
    | .error e => (handle_process_approval_error env true e, none)
    | .ok next_block_epoch_id =>
      -- peer provenance: signature check with epoch-boundary fallback
      let verified : Except (ApprovalOutcome × Option EpochId) (Option EpochId) :=
        match approval_type with
        | .selfApproval => .ok none
        | .peerApproval =>
          let validator_epoch_id : Except (ApprovalOutcome × Option EpochId) EpochId :=
            match env.get_validator_by_account_id with
            | .ok _ => .ok next_block_epoch_id
            | .error .notAValidator =>
              match env.get_next_epoch_id_from_prev_block with
              | .ok next_block_next_epoch_id => .ok next_block_next_epoch_id
              | .error _ => .error (.dropped, none)
            | .error _ => .error (.dropped, none)
          match validator_epoch_id with
          | .error out => .error out
          | .ok epoch =>
            match env.verify_validator_signature epoch with
            | .ok true => .ok (some epoch)
            | _ => .error (.dropped, some epoch)
      match verified with
      | .error out => out
      | .ok used_epoch =>
        let is_block_producer :=
          match env.get_block_producer with
          | .error _ => false
          | .ok target_block_producer =>
            some target_block_producer = env.me
        if !is_block_producer then
          match env.get_block_header with
          | .ok _ => (.dropped, used_epoch)
          | .error e => (handle_process_approval_error env false e, used_epoch)
        else
          match env.get_epoch_block_approvers_ordered with
          | .ok _stakes => (.doomslug, used_epoch)
          | .error _ => (.dropped, used_epoch)

/- ------------------------------------------------------------------ -/
/- process_tx (client.rs 1755-1931) and forwarding                    -/
/- ------------------------------------------------------------------ -/

/-- crate::adapter::ProcessTxResponse. -/
inductive ProcessTxResponse where
  | noResponse
  | invalidTx (e : Nat)
  | validTx
  | requestRouted
  | doesNotTrackShard
  deriving Repr, DecidableEq

/-- Environment of one process_tx call (lookups fixed by the call's
transaction and the current head). -/
structure ProcessTxEnv where
  /-- chain.head() / head_header() succeed (their failure propagates as an
  internal error swallowed by process_tx). -/
  head_ok : Bool
  /-- check_transaction_validity_period: none when valid, some e when the
  transaction is expired / from a different fork. -/
  check_transaction_validity_period : Option Nat
  /-- runtime_adapter.validate_tx(gas_price, None, .., verify_signature
  true ..): basic validation, none when valid. -/
  validate_tx_basic : Option Nat
  /-- runtime_adapter.get_epoch_id_from_prev_block(head.last_block_hash). -/
  get_epoch_id_from_prev_block : Except Nat EpochId
  /-- runtime_adapter.get_epoch_protocol_version(epoch_id). -/
  get_epoch_protocol_version : Except Nat Nat
  /-- runtime_adapter.account_id_to_shard_id(tx.signer_id, epoch_id). -/
  account_id_to_shard_id : Except Nat Nat
  /-- runtime_adapter.cares_about_shard(me, head.last_block_hash, shard_id,
  true). -/
  cares_about_shard : Bool
  /-- runtime_adapter.will_care_about_shard(me, head.last_block_hash,
  shard_id, true). -/
  will_care_about_shard : Bool
  /-- runtime_adapter.shard_id_to_uid(shard_id, epoch_id). -/
  shard_id_to_uid : Except Nat Nat
  /-- chain.get_chunk_extra(head.last_block_hash, shard_uid): the state
  root when available. -/
  get_chunk_extra : Option Nat
  /-- runtime_adapter.validate_tx(gas_price, Some(state_root), .., false ..):
  full validation, none when valid. -/
  validate_tx_full : Option Nat
  /-- Client::active_validator(shard_id). -/
  active_validator : Except Nat Bool
  /-- Client::forward_tx(epoch_id, tx): the deduplicated chunk-producer
  targets it sends ForwardTx to (computed before any send). -/
  forward_tx : Except Nat (List AccountId)
  /-- Client::possibly_forward_tx_to_next_epoch(tx): like forward_tx but
  under the next epoch id when close to the epoch boundary. -/
  possibly_forward_tx_to_next_epoch : Except Nat (List AccountId)

/-- Client::process_tx_internal (client.rs 1801-1910).  Returns the
response (or an internal error) together with the ForwardTx network
requests emitted during the call. -/
def process_tx_internal (env : ProcessTxEnv) (is_forwarded check_only : Bool) :
    Except Nat ProcessTxResponse × List AccountId :=
  if !env.head_ok then (.error 100, [])
  else match env.check_transaction_validity_period with
  | some e => (.ok (.invalidTx e), [])
  | none =>
    match env.get_epoch_id_from_prev_block with
    | .error e => (.error e, [])
    | .ok _epoch_id =>
      match env.get_epoch_protocol_version with
      | .error e => (.error e, [])
      | .ok _protocol_version =>
        match env.validate_tx_basic with
        | some e => (.ok (.invalidTx e), [])
        | none =>
          match env.account_id_to_shard_id with
          | .error e => (.error e, [])
          | .ok _shard_id =>
            if env.cares_about_shard || env.will_care_about_shard then
              match env.shard_id_to_uid with
              | .error e => (.error e, [])
              | .ok _shard_uid =>
              match env.get_chunk_extra with
              | none =>
                -- not caught up with the next epoch yet
                if is_forwarded then (.error 101, [])
                else
                  match env.forward_tx with
                  | .error e => (.error e, [])
                  | .ok targets => (.ok .requestRouted, targets)
              | some _state_root =>
                match env.validate_tx_full with
                | some e => (.ok (.invalidTx e), [])
                | none =>
                  if check_only then (.ok .validTx, [])
                  else
                    match env.active_validator with
                    | .error e => (.error e, [])
                    | .ok active =>
                      -- the transaction is recorded in the sharded pool here
                      if active then
                        if !is_forwarded then
                          match env.possibly_forward_tx_to_next_epoch with
                          | .error e => (.error e, [])
                          | .ok targets => (.ok .validTx, targets)
                        else (.ok .validTx, [])
                      else if !is_forwarded then
                        match env.forward_tx with
                        | .error e => (.error e, [])
                        | .ok targets => (.ok .requestRouted, targets)
                      else (.ok .noResponse, [])
            else if check_only then (.ok .doesNotTrackShard, [])
            else if is_forwarded then (.ok .noResponse, [])
            else
              match env.forward_tx with
              | .error e => (.error e, [])
              | .ok targets => (.ok .requestRouted, targets)

/-- Client::process_tx (client.rs 1755-1766): internal errors are logged
and turned into NoResponse. -/
def process_tx (env : ProcessTxEnv) (is_forwarded check_only : Bool) :
    ProcessTxResponse × List AccountId :=
  match process_tx_internal env is_forwarded check_only with
  | (.ok r, msgs) => (r, msgs)
  | (.error _, msgs) => (.noResponse, msgs)

/- ------------------------------------------------------------------ -/
/- cold-storage adapter (core/store/src/db/colddb.rs)                 -/
/- ------------------------------------------------------------------ -/

/-- Raw database bytes: a list of byte values (each below 256). -/
abbrev Bytes := List Nat

/-- The store columns referenced by colddb.rs. -/
inductive DBCol where
  | Block
  | BlockHeader
  | BlockHeight
  | BlockPerHeight
  | ChunkHashesByHeight
  | ProcessedBlockHeights
  | HeaderHashesByHeight
  | State
  | EpochInfo
  | StateChanges
  | Transactions
  deriving Repr, DecidableEq

/-- Modelled from the spec: DBCol::is_rc (defined in the columns module,
not under src/).  The spec lists Transactions as refcounted and State
holds refcounted trie nodes; colddb.rs's own snapshot tests read State
and Transactions back with a refcount and every other column above
without one. -/
def DBCol.is_rc : DBCol → Bool
  | .State => true
  | .Transactions => true
  | _ => false

/-- u64::from_le_bytes. -/
def from_le_bytes (key : Bytes) : Nat :=
  key.foldr (fun b acc => b + 256 * acc) 0

/-- u64::to_le_bytes. -/
def to_le_bytes (n : Nat) : Bytes :=
  (List.range 8).map fun i => n / 256 ^ i % 256

/-- u64::to_be_bytes. -/
def to_be_bytes (n : Nat) : Bytes :=
  (to_le_bytes n).reverse

/-- The 8-byte value 1i64.to_le_bytes() appended to refcounted reads
(colddb.rs line 104). -/
def ONE : Bytes := to_le_bytes 1

/-- get_cold_key (colddb.rs 231-251): for the five height-keyed columns
the 8-byte little-endian key is re-encoded big-endian; for State the
8-byte ShardUId in front of the 32-byte hash is stripped; other columns
keep their key (None). -/
def get_cold_key (col : DBCol) (key : Bytes) : Option Bytes :=
  match col with
  | .BlockHeight | .BlockPerHeight | .ChunkHashesByHeight
  | .ProcessedBlockHeights | .HeaderHashesByHeight =>
    -- key is little_endian(height)
    some (to_be_bytes (from_le_bytes key))
  | .State =>
    -- key is ShardUId followed by CryptoHash(node_or_value)
    some (key.drop 8)
  | _ => none

/-- adjust_key (colddb.rs 254-260). -/
def adjust_key (col : DBCol) (key : Bytes) : Bytes :=
  (get_cold_key col key).getD key

/-- Interpret 8 little-endian bytes as an i64 (two's complement). -/
def i64_of_le (bytes : Bytes) : Int :=
  let n := from_le_bytes bytes
  if n < 2 ^ 63 then (n : Int) else (n : Int) - 2 ^ 64

/-- Modelled from the spec: near_store::db::refcount::strip_refcount
(refcount module, not under src/).  A refcounted value carries its
reference count as a trailing little-endian i64; the count is dropped
and the bare value returned when the count is positive, None otherwise
(colddb.rs relies on exactly this in adjust_op and appends 1i64.to_le_bytes()
on reads). -/
def strip_refcount (value : Bytes) : Option Bytes :=
  if 8 ≤ value.length ∧ 0 < i64_of_le (value.drop (value.length - 8)) then
    some (value.take (value.length - 8))
  else none

/-- crate::db::DBOp. -/
inductive DBOp where
  | set (col : DBCol) (key value : Bytes)
  | insert (col : DBCol) (key value : Bytes)
  | updateRefcount (col : DBCol) (key value : Bytes)
  | delete (col : DBCol) (key : Bytes)
  | deleteAll (col : DBCol)
  deriving Repr, DecidableEq

/-- adjust_op (colddb.rs 267-296) as a pure function: some op' when the
operation is kept (possibly rewritten), none when it is dropped.  The
debug-only log_assert calls drop the operation in release builds; the
col.is_rc assertion on UpdateRefcount is an invariant of the callers and
is not modelled as an abort. -/
def adjust_op : DBOp → Option DBOp
  | .set col key value => some (.set col (adjust_key col key) value)
  | .insert col key value => some (.insert col (adjust_key col key) value)
  | .updateRefcount col key value =>
    match strip_refcount value with
    | some value => some (.set col key value)
    | none => none
  | .delete _ _ => none
  | .deleteAll _ => none

/-- Vec::swap_remove(idx): replace the element at idx with the last
element and shrink by one. -/
def swap_remove (ops : List DBOp) (idx : Nat) : List DBOp :=
  match ops.getLast? with
  | none => []
  | some last => (ops.set idx last).dropLast

theorem swap_remove_length (ops : List DBOp) (idx : Nat) (h : ops ≠ []) :
    (swap_remove ops idx).length = ops.length - 1 := by
  unfold swap_remove
  match hl : ops.getLast? with
  | none => exact absurd (List.getLast?_eq_none_iff.mp hl) h
  | some last => simp [List.length_dropLast]

/-- The while loop of ColdDB::write (colddb.rs 188-198): adjust the
operation at idx in place and advance, or swap_remove it. -/
def adjust_ops (ops : List DBOp) (idx : Nat) : List DBOp :=
  if h : idx < ops.length then
    match adjust_op ops[idx] with
    | some op' => adjust_ops (ops.set idx op') (idx + 1)
    | none => adjust_ops (swap_remove ops idx) idx
  else ops
termination_by ops.length - idx
decreasing_by
  · simp only [List.length_set]
    omega
  · have hne : ops ≠ [] := by
      intro he
      subst he
      simp at h
    rw [swap_remove_length ops idx hne]
    omega

/-- An in-memory key-value store (most recent write first). -/
abbrev Store := List ((DBCol × Bytes) × Bytes)

/-- Point lookup. -/
def store_get (s : Store) (col : DBCol) (key : Bytes) : Option Bytes :=
  match s.find? (fun e => e.1 = (col, key)) with
  | some e => some e.2
  | none => none

/-- Point write (overwrites by shadowing). -/
def store_set (s : Store) (col : DBCol) (key value : Bytes) : Store :=
  ((col, key), value) :: s

/-- Remove a key. -/
def store_delete (s : Store) (col : DBCol) (key : Bytes) : Store :=
  s.filter (fun e => e.1 ≠ (col, key))

/-- Apply one operation to the underlying (cold) database.  Set and
Insert store the value; Delete / DeleteAll remove; UpdateRefcount is the
rocksdb refcount merge (modelled from the spec: counts add up, the value
is removed when the total is no longer positive) - after adjust_op none
of the last three ever reaches the cold database. -/
def db_apply (s : Store) : DBOp → Store
  | .set col key value => store_set s col key value
  | .insert col key value => store_set s col key value
  | .updateRefcount col key value =>
    let existing := (store_get s col key).getD []
    let rc_old : Int := if existing.length < 8 then 0
      else i64_of_le (existing.drop (existing.length - 8))
    let rc_new : Int := if value.length < 8 then 0
      else i64_of_le (value.drop (value.length - 8))
    let data := if 8 ≤ value.length then value.take (value.length - 8)
      else existing.take (existing.length - 8)
    if rc_old + rc_new ≤ 0 then store_delete s col key
    else store_set s col key (data ++ to_le_bytes ((rc_old + rc_new).toNat))
  | .delete col key => store_delete s col key
  | .deleteAll col => s.filter (fun e => e.1.1 ≠ col)

/-- The ColdDB wrapper state: the hot database it falls back to for
BlockHeader and the cold database it owns. -/
structure ColdDBState where
  hot : Store
  cold : Store

/-- ColdDB::is_hot_column (colddb.rs 54-77): BlockHeader reads go to the
hot database, everything else to cold. -/
def is_hot_column (col : DBCol) : Bool :=
  match col with
  | .BlockHeader => true
  | _ => false

/-- ColdDB::get_cold_impl (colddb.rs 86-90): adjust the key if necessary
and read the cold database. -/
def get_cold_impl (db : ColdDBState) (col : DBCol) (key : Bytes) : Option Bytes :=
  store_get db.cold col ((get_cold_key col key).getD key)

/-- ColdDB::get_raw_bytes (colddb.rs 94-110): hot columns read from hot;
refcounted values get a reference count of one appended. -/
def cold_get_raw_bytes (db : ColdDBState) (col : DBCol) (key : Bytes) : Option Bytes :=
  if is_hot_column col then store_get db.hot col key
  else
    match get_cold_impl db col key with
    | some value =>
      if col.is_rc then some (value ++ ONE) else some value
    | none => none

/-- ColdDB::write (colddb.rs 188-198): adjust or drop every operation,
then apply the transaction to the cold database. -/
def cold_write (db : ColdDBState) (transaction : List DBOp) : ColdDBState :=
  { db with cold := (adjust_ops transaction 0).foldl db_apply db.cold }

/- ================================================================== -/
/- Theorems                                                           -/
/- ================================================================== -/

/-- C5: check_block_height returns false in exactly three cases: height
at least head.height + BLOCK_HORIZON (= 500) while syncing and not
requested; height below the chain tail; or unrequested with prev_hash
different from the head's last_block_hash and the height already
processed.  In all other cases it returns true. -/
theorem c5_check_block_height_exact
    (head_height tail block_height : Nat)
    (is_syncing was_requested prev_hash_eq_head height_processed : Bool) :
    check_block_height head_height tail block_height
        is_syncing was_requested prev_hash_eq_head height_processed = false ↔
      ((block_height ≥ head_height + 500 ∧ is_syncing = true ∧ was_requested = false)
        ∨ block_height < tail
        ∨ (was_requested = false ∧ prev_hash_eq_head = false ∧ height_processed = true)) := by
  cases is_syncing <;> cases was_requested <;> cases prev_hash_eq_head <;>
    cases height_processed <;>
    simp [check_block_height, BLOCK_HORIZON] <;> omega

/-- C8 helper: a hash in the cache is never sent again and only refreshed. -/
theorem rebroadcast_block_mem (s : List Hash) (h : Hash) (hm : h ∈ s) :
    rebroadcast_block s h = (false, h :: s.erase h) := by
  simp [rebroadcast_block, lru_get, hm]

/-- C8 helper: a hash not in the cache is sent and inserted. -/
theorem rebroadcast_block_not_mem (s : List Hash) (h : Hash) (hm : h ∉ s) :
    rebroadcast_block s h = (true, (h :: s.erase h).take NUM_REBROADCAST_BLOCKS) := by
  simp [rebroadcast_block, lru_get, lru_put, hm]

/-- C8 helper: after any rebroadcast_block call its hash is in the cache. -/
theorem rebroadcast_block_mem_after (s : List Hash) (h : Hash) :
    h ∈ (rebroadcast_block s h).2 := by
  by_cases hm : h ∈ s
  · rw [rebroadcast_block_mem s h hm]
    exact List.mem_cons_self h _
  · rw [rebroadcast_block_not_mem s h hm]
    show h ∈ (h :: s.erase h).take NUM_REBROADCAST_BLOCKS
    simp [NUM_REBROADCAST_BLOCKS]

/-- C8: a rebroadcast_block call sends the block iff its hash is not in
the 30-entry LRU window; afterwards the hash is in the window; and along
any sequence of calls, a call whose hash is (still) in the window it
observes emits nothing - so a hash is broadcast at most once while it
remains within the window. -/
theorem c8_rebroadcast_idempotent :
    (∀ (s : List Hash) (h : Hash), ((rebroadcast_block s h).1 = true ↔ h ∉ s))
    ∧ (∀ (s : List Hash) (h : Hash), h ∈ (rebroadcast_block s h).2)
    ∧ (∀ (s : List Hash) (h : Hash),
        (rebroadcast_block (rebroadcast_block s h).2 h).1 = false)
    ∧ (∀ (s : List Hash) (calls : List Hash) (i : Nat) (h : Hash) (st : List Hash),
        (rebroadcast_states s calls)[i]? = some st → calls[i]? = some h →
        h ∈ st → (rebroadcast_sends s calls)[i]? = some false) := by
  have hsend : ∀ (s : List Hash) (h : Hash), ((rebroadcast_block s h).1 = true ↔ h ∉ s) := by
    intro s h
    by_cases hm : h ∈ s
    · rw [rebroadcast_block_mem s h hm]
      simp [hm]
    · rw [rebroadcast_block_not_mem s h hm]
      simp [hm]
  refine ⟨hsend, rebroadcast_block_mem_after, ?_, ?_⟩
  · intro s h
    have hmem := rebroadcast_block_mem_after s h
    rw [rebroadcast_block_mem _ h hmem]
  · intro s calls
    induction calls generalizing s with
    | nil => intro i h st hst; simp [rebroadcast_states] at hst
    | cons c cs ih =>
      intro i h st hst hc hmem
      match i with
      | 0 =>
        simp [rebroadcast_states] at hst
        simp at hc
        subst hst
        subst hc
        simp [rebroadcast_sends]
        rw [rebroadcast_block_mem _ _ hmem]
      | i + 1 =>
        simp [rebroadcast_states] at hst
        simp at hc
        simp [rebroadcast_sends]
        exact ih (rebroadcast_block s c).2 i h st hst hc hmem

/-- C8 witness: concrete run of the theorem, second call inside the
window emits nothing. -/
theorem c8_rebroadcast_idempotent_witness :
    (5 : Hash) ∈ [5, 7] ∧ (rebroadcast_block [5, 7] 5).1 = false := by
  refine ⟨by decide, ?_⟩
  have h := c8_rebroadcast_idempotent.1 [5, 7] 5
  by_cases hb : (rebroadcast_block [5, 7] 5).1 = true
  · exact absurd (h.mp hb) (by decide)
  · simpa using hb

/-- Approvals helper: a value removed from the witness map was in it. -/
theorem witness_remove_some_mem (m : List (AccountId × Sig)) (a : AccountId) (v : Sig)
    (h : (witness_remove m a).1 = some v) : (a, v) ∈ m := by
  induction m with
  | nil => simp [witness_remove] at h
  | cons p rest ih =>
    obtain ⟨k, w⟩ := p
    by_cases hk : k = a
    · subst hk
      simp [witness_remove] at h
      subst h
      exact List.mem_cons_self _ _
    · simp [witness_remove, hk] at h
      exact List.mem_cons_of_mem _ (ih h)

/-- Approvals helper: removal leaves a sublist of the witness map. -/
theorem witness_remove_sublist (m : List (AccountId × Sig)) (a : AccountId) :
    (witness_remove m a).2.Sublist m := by
  induction m with
  | nil => simp [witness_remove]
  | cons p rest ih =>
    obtain ⟨k, w⟩ := p
    by_cases hk : k = a
    · simp only [witness_remove, if_pos hk]
      exact (List.Sublist.refl rest).cons _
    · simp only [witness_remove, if_neg hk]
      exact ih.cons₂ _

/-- Approvals helper: with distinct keys, no entry keyed by the removed
account survives the removal. -/
theorem witness_remove_key_ne (m : List (AccountId × Sig)) (a : AccountId)
    (hnd : (m.map Prod.fst).Nodup) :
    ∀ p ∈ (witness_remove m a).2, p.1 ≠ a := by
  induction m with
  | nil => simp [witness_remove]
  | cons q rest ih =>
    obtain ⟨k, w⟩ := q
    simp only [List.map_cons, List.nodup_cons] at hnd
    by_cases hk : k = a
    · subst hk
      simp only [witness_remove, if_pos rfl]
      intro p hp hpa
      exact hnd.1 (hpa ▸ (List.mem_map_of_mem Prod.fst hp))
    · simp only [witness_remove, if_neg hk]
      intro p hp
      rcases List.mem_cons.mp hp with h | h
      · subst h; exact hk
      · exact ih hnd.2 p h

/-- Approvals: the vector has one entry per ordered approver. -/
theorem compute_approvals_length (aps : List (AccountId × Bool)) (m : List (AccountId × Sig)) :
    (compute_approvals aps m).1.length = aps.length := by
  induction aps generalizing m with
  | nil => simp [compute_approvals]
  | cons p rest ih =>
    obtain ⟨a, slashed⟩ := p
    cases slashed <;> simp [compute_approvals, ih]

/-- Approvals: the slot of a slashed approver is None. -/
theorem compute_approvals_slashed (aps : List (AccountId × Bool)) (m : List (AccountId × Sig))
    (i : Nat) (a : AccountId) (h : aps[i]? = some (a, true)) :
    (compute_approvals aps m).1[i]? = some none := by
  induction aps generalizing m i with
  | nil => simp at h
  | cons p rest ih =>
    obtain ⟨b, slashed⟩ := p
    match i with
    | 0 =>
      simp at h
      obtain ⟨rfl, rfl⟩ := h
      simp [compute_approvals]
    | i + 1 =>
      simp at h
      cases slashed <;> simp [compute_approvals] <;> exact ih _ _ h

/-- Approvals: a Some(sig) entry is the witness-map signature of the
unslashed approver in that slot. -/
theorem compute_approvals_some (aps : List (AccountId × Bool)) (m : List (AccountId × Sig))
    (i : Nat) (sig : Sig) (h : (compute_approvals aps m).1[i]? = some (some sig)) :
    ∃ a, aps[i]? = some (a, false) ∧ (a, sig) ∈ m := by
  induction aps generalizing m i with
  | nil => simp [compute_approvals] at h
  | cons p rest ih =>
    obtain ⟨b, slashed⟩ := p
    cases slashed
    · match i with
      | 0 =>
        simp [compute_approvals] at h
        exact ⟨b, by simp, witness_remove_some_mem m b sig h⟩
      | i + 1 =>
        simp [compute_approvals] at h
        obtain ⟨a, ha, hmem⟩ := ih (witness_remove m b).2 i h
        exact ⟨a, by simpa using ha, (witness_remove_sublist m b).subset hmem⟩
    · match i with
      | 0 => simp [compute_approvals] at h
      | i + 1 =>
        simp [compute_approvals] at h
        obtain ⟨a, ha, hmem⟩ := ih m i h
        exact ⟨a, by simpa using ha, hmem⟩

/-- Approvals: when the witness map's keys are distinct and every one of
them is an unslashed ordered approver, the draw empties the map. -/
theorem compute_approvals_drained (aps : List (AccountId × Bool)) (m : List (AccountId × Sig))
    (hnd : (m.map Prod.fst).Nodup) (hsub : ∀ p ∈ m, (p.1, false) ∈ aps) :
    (compute_approvals aps m).2 = [] := by
  induction aps generalizing m with
  | nil =>
    have : m = [] := by
      cases m with
      | nil => rfl
      | cons p rest => exact absurd (hsub p (List.mem_cons_self _ _)) (by simp)
    subst this
    simp [compute_approvals]
  | cons q rest ih =>
    obtain ⟨b, slashed⟩ := q
    cases slashed
    · show (compute_approvals rest (witness_remove m b).2).2 = []
      refine ih _ ?_ ?_
      · exact ((witness_remove_sublist m b).map Prod.fst).nodup hnd
      · intro p hp
        have hpm : p ∈ m := (witness_remove_sublist m b).subset hp
        have := hsub p hpm
        rcases List.mem_cons.mp this with h | h
        · exact absurd (congrArg Prod.fst h) (witness_remove_key_ne m b hnd p hp)
        · exact h
    · show (compute_approvals rest m).2 = []
      refine ih m hnd ?_
      intro p hp
      have := hsub p hp
      rcases List.mem_cons.mp this with h | h
      · exact absurd (congrArg Prod.snd h) (by simp)
      · exact h

/-- produce_block helper: rescheduling was declined only when the height
is fresh and we are the elected producer. -/
theorem should_reschedule_block_ok_false {env : ProduceBlockEnv} {nh kh : Nat}
    {a p : AccountId} (h : should_reschedule_block env nh kh a p = .ok false) :
    kh < nh ∧ a = p := by
  unfold should_reschedule_block at h
  by_cases h1 : known_block_height nh kh = true
  · simp [h1] at h
  · by_cases h2 : is_me_block_producer a p = true
    · constructor
      · simp [known_block_height] at h1
        omega
      · simpa [is_me_block_producer] using h2
    · rw [Bool.not_eq_true] at h1 h2
      simp [h1, h2] at h

/-- produce_block helper: a produced block carries height next_height and
the approvals vector drawn from the ordered approvers and the Doomslug
witness. -/
theorem produce_block_inner_ok_some {st : Nat} {env : ProduceBlockEnv} {nh : Nat}
    {b : BlockM} {aps : List (AccountId × Bool)}
    (h : produce_block_inner st env nh = .ok (some b))
    (haps : env.get_epoch_block_approvers_ordered = .ok aps) :
    b.approvals = (compute_approvals aps env.get_witness).1 ∧ b.height = nh := by
  unfold produce_block_inner at h
  split at h
  · exact absurd h (by simp)
  split at h
  · exact absurd h (by simp)
  split at h
  · exact absurd h (by simp)
  split at h
  · exact absurd h (by simp)
  split at h
  · exact absurd h (by simp)
  split at h
  · exact absurd h (by simp)
  split at h
  · exact absurd h (by simp)
  · exact absurd h (by simp)
  split at h
  · exact absurd h (by simp)
  split at h
  · exact absurd h (by simp)
  split at h
  · exact absurd h (by simp)
  split at h
  · exact absurd h (by simp)
  split at h
  · exact absurd h (by simp)
  split at h
  · exact absurd h (by simp)
  rename_i approver_stakes heq_aps
  split at h
  · exact absurd h (by simp)
  split at h
  · exact absurd h (by simp)
  split at h
  · exact absurd h (by simp)
  split at h
  · exact absurd h (by simp)
  split at h
  · exact absurd h (by simp)
  split at h
  · exact absurd h (by simp)
  split at h
  · exact absurd h (by simp)
  split at h
  · exact absurd h (by simp)
  split at h
  · exact absurd h (by simp)
  split at h
  · exact absurd h (by simp)
  split at h
  · exact absurd h (by simp)
  split at h
  · exact absurd h (by simp)
  split at h
  · exact absurd h (by simp)
  split at h
  · exact absurd h (by simp)
  split at h
  · exact absurd h (by simp)
  split at h
  · exact absurd h (by simp)
  injection h with h1
  injection h1 with h2
  subst h2
  rw [haps] at heq_aps
  injection heq_aps with hae
  subst hae
  exact ⟨rfl, rfl⟩

/-- produce_block helper: a produced block's height is above the stored
latest-known height. -/
theorem produce_block_inner_ok_some_fresh {st : Nat} {env : ProduceBlockEnv} {nh : Nat}
    {b : BlockM} (h : produce_block_inner st env nh = .ok (some b)) : st < nh := by
  unfold produce_block_inner at h
  split at h
  · exact absurd h (by simp)
  split at h
  · exact absurd h (by simp)
  split at h
  · exact absurd h (by simp)
  split at h
  · exact absurd h (by simp)
  split at h
  · exact absurd h (by simp)
  split at h
  · exact absurd h (by simp)
  split at h
  · exact absurd h (by simp)
  · exact absurd h (by simp)
  · rename_i heq
    exact (should_reschedule_block_ok_false heq).1

/-- produce_block helper: the only errors are the missing-signer
BlockProducer error and propagated store / epoch-manager errors. -/
theorem produce_block_inner_err {st : Nat} {env : ProduceBlockEnv} {nh : Nat}
    {e : ClientErr} (h : produce_block_inner st env nh = .error (.err e)) :
    e = .blockProducer ∨ ∃ c, e = .db c := by
  unfold produce_block_inner at h
  repeat' split at h
  all_goals first
    | (injection h with h1; injection h1 with h2; exact Or.inl h2.symm)
    | (injection h with h1; injection h1 with h2; exact Or.inr ⟨_, h2.symm⟩)
    | (injection h with h1; injection h1)
    | injection h

/-- produce_block helper: the wrapper returns Ok(Some _) exactly when the
inner computation does. -/
theorem produce_block_fst_ok_some {st : Nat} {env : ProduceBlockEnv} {nh : Nat} {b : BlockM} :
    (produce_block st env nh).1 = .ok (some b) ↔
      produce_block_inner st env nh = .ok (some b) := by
  unfold produce_block
  cases hres : produce_block_inner st env nh with
  | ok ob => cases ob <;> simp
  | error s => cases s <;> simp

/-- The lookups of produce_block that precede its guards: latest-known
read, signer, head, elected producer, previous header, and the fallible
Doomslug tip update (client.rs 461). -/
def pb_lookups_ok (env : ProduceBlockEnv) (me proposer : AccountId) : Prop :=
  env.get_latest_known_ok = true ∧
  env.validator_signer = some me ∧
  (∃ hd, env.head = .ok hd) ∧
  env.get_block_producer = .ok proposer ∧
  (∃ prev, env.get_block_header = .ok prev) ∧
  check_and_update_doomslug_tip env = .ok ()

/-- C1: a block returned by produce_block has one approvals entry per
ordered approver of the previous block; slashed approvers' slots are
None; every Some(sig) is the Doomslug witness signature of the unslashed
approver in that slot; and a witness map whose (distinct) signers are
all unslashed approvers is drained empty. -/
theorem c1_produce_block_approvals (st : Nat) (env : ProduceBlockEnv) (next_height : Nat)
    (b : BlockM) (aps : List (AccountId × Bool))
    (hres : (produce_block st env next_height).1 = .ok (some b))
    (haps : env.get_epoch_block_approvers_ordered = .ok aps) :
    b.approvals.length = aps.length
    ∧ (∀ (i : Nat) (a : AccountId), aps[i]? = some (a, true) → b.approvals[i]? = some none)
    ∧ (∀ (i : Nat) (sig : Sig), b.approvals[i]? = some (some sig) →
        ∃ a : AccountId, aps[i]? = some (a, false) ∧ (a, sig) ∈ env.get_witness)
    ∧ ((env.get_witness.map Prod.fst).Nodup →
        (∀ p ∈ env.get_witness, (p.1, false) ∈ aps) →
        (compute_approvals aps env.get_witness).2 = []) := by
  have hinner := produce_block_fst_ok_some.mp hres
  obtain ⟨happr, _hh⟩ := produce_block_inner_ok_some hinner haps
  rw [happr]
  exact ⟨compute_approvals_length aps env.get_witness,
    fun i a hi => compute_approvals_slashed aps env.get_witness i a hi,
    fun i sig hi => compute_approvals_some aps env.get_witness i sig hi,
    fun hnd hsub => compute_approvals_drained aps env.get_witness hnd hsub⟩

/-- C2: produce_block answers Ok(None), not an error, in each "not now"
case - height already known, not the elected producer, epoch start with
the prev-prev block not caught up, and empty-block production disabled
with no ready chunks - and any error it returns is either the
missing-signer BlockProducer error or a propagated store / epoch-manager
error. -/
theorem c2_produce_block_not_now (st : Nat) (env : ProduceBlockEnv)
    (next_height me proposer : Nat) :
    (pb_lookups_ok env me proposer → next_height ≤ st →
      produce_block st env next_height = (.ok none, st))
    ∧ (pb_lookups_ok env me proposer → me ≠ proposer →
      produce_block st env next_height = (.ok none, st))
    ∧ (pb_lookups_ok env me proposer → st < next_height → me = proposer →
      env.is_next_block_epoch_start = .ok true →
      env.prev_block_is_caught_up = .ok false →
      produce_block st env next_height = (.ok none, st))
    ∧ (pb_lookups_ok env me proposer → st < next_height → me = proposer →
      env.is_next_block_epoch_start = .ok false →
      env.get_validator_by_account_id = .ok env.signer_public_key →
      env.produce_empty_blocks = false →
      env.chunk_headers_ready_for_inclusion = [] →
      produce_block st env next_height = (.ok none, st))
    ∧ (∀ e, (produce_block st env next_height).1 = .err e →
      e = .blockProducer ∨ ∃ c, e = .db c) := by
  refine ⟨?_, ?_, ?_, ?_, ?_⟩
  · intro hok hknown
    obtain ⟨hl, hs, ⟨hd, hh⟩, hp, ⟨prev, hprev⟩, hct⟩ := hok
    simp [produce_block, produce_block_inner, hl, hs, hh, hp, hprev, hct,
      should_reschedule_block, known_block_height, hknown]
  · intro hok hne
    obtain ⟨hl, hs, ⟨hd, hh⟩, hp, ⟨prev, hprev⟩, hct⟩ := hok
    by_cases hk : next_height ≤ st <;>
      simp [produce_block, produce_block_inner, hl, hs, hh, hp, hprev, hct,
        should_reschedule_block, known_block_height, is_me_block_producer, hk, hne]
  · intro hok hfresh heqp hstart hcaught
    obtain ⟨hl, hs, ⟨hd, hh⟩, hp, ⟨prev, hprev⟩, hct⟩ := hok
    subst heqp
    have hnk : ¬ next_height ≤ st := by omega
    simp [produce_block, produce_block_inner, hl, hs, hh, hp, hprev, hct,
      should_reschedule_block, known_block_height, is_me_block_producer, hnk,
      hstart, hcaught]
  · intro hok hfresh heqp hstart hpk hpeb hchunks
    obtain ⟨hl, hs, ⟨hd, hh⟩, hp, ⟨prev, hprev⟩, hct⟩ := hok
    subst heqp
    have hnk : ¬ next_height ≤ st := by omega
    simp [produce_block, produce_block_inner, hl, hs, hh, hp, hprev, hct,
      should_reschedule_block, known_block_height, is_me_block_producer, hnk,
      hstart, hpk, hpeb, hchunks]
  · intro e he
    unfold produce_block at he
    cases hres : produce_block_inner st env next_height with
    | ok ob =>
      rw [hres] at he
      cases ob <;> simp at he
    | error s =>
      rw [hres] at he
      cases s with
      | err e2 =>
        simp at he
        subst he
        exact produce_block_inner_err hres
      | panic => simp at he

/-- C6: whenever produce_block returns Ok(Some _), the LatestKnown
height stored before returning equals next_height and exceeds the
previously stored height; the stored height never decreases; and a call
at a height at most the stored height never produces a block, so the
same height is never produced twice. -/
theorem c6_latest_known_monotone (st : Nat) (env : ProduceBlockEnv) (next_height : Nat) :
    (∀ b, (produce_block st env next_height).1 = .ok (some b) →
      (produce_block st env next_height).2 = next_height ∧ st < next_height)
    ∧ st ≤ (produce_block st env next_height).2
    ∧ (next_height ≤ st → ∀ b, (produce_block st env next_height).1 ≠ .ok (some b)) := by
  refine ⟨?_, ?_, ?_⟩
  · intro b hb
    have hinner := produce_block_fst_ok_some.mp hb
    constructor
    · unfold produce_block
      rw [hinner]
    · exact produce_block_inner_ok_some_fresh hinner
  · unfold produce_block
    cases hres : produce_block_inner st env next_height with
    | ok ob =>
      cases ob with
      | none => simp
      | some b =>
        simp
        exact Nat.le_of_lt (produce_block_inner_ok_some_fresh hres)
    | error s => cases s <;> simp
  · intro hle b hb
    have hinner := produce_block_fst_ok_some.mp hb
    have := produce_block_inner_ok_some_fresh hinner
    omega

/-- A concrete produce_block environment on which production succeeds:
validator 1 is the elected producer, approvers are 1 and 2 (unslashed)
and 3 (slashed), the Doomslug witness holds signatures of 1 and 2. -/
def env_ok : ProduceBlockEnv :=
  { validator_signer := some 1
    signer_public_key := 10
    get_latest_known_ok := true
    head := .ok { height := 5, last_block_hash := 100, prev_block_hash := 99,
                  epoch_id := 7, next_epoch_id := 8 }
    epoch_id_from_prev_block := 7
    get_block_producer := .ok 1
    get_block_header := .ok { height := 5, hash := 100, prev_hash := 99,
                              epoch_id := 7, next_bp_hash := 55, last_final_block := 0 }
    doomslug_tip_hash := 100
    get_block_header_last_final := .ok { height := 3, hash := 98, prev_hash := 97,
                                         epoch_id := 7, next_bp_hash := 55,
                                         last_final_block := 0 }
    genesis_height := 0
    is_next_block_epoch_start := .ok false
    prev_block_is_caught_up := .ok true
    get_validator_by_account_id := .ok 10
    chunk_headers_ready_for_inclusion := [(0, { shard_id := 0, height_included := 5 })]
    produce_empty_blocks := true
    get_witness := [(1, 77), (2, 88)]
    get_epoch_protocol_version := .ok 50
    client_protocol_version := 50
    get_epoch_block_approvers_ordered := .ok [(1, false), (2, false), (3, true)]
    get_next_epoch_id_from_prev_block := .ok 8
    compute_bp_hash := .ok 0
    get_block_merkle_tree := .ok 4
    get_block_extra := .ok ()
    get_block := .ok ()
    get_prev_chunk_headers := .ok [{ shard_id := 0, height_included := 4 }]
    construct_chunk_collection_info := .ok ()
    get_epoch_minted_amount := .ok 0
    get_epoch_sync_data_hash := .ok none
    get_next_epoch_protocol_version := .ok 50
    save_latest_known_ok := true }

/-- The block env_ok produces at height 6. -/
def block_ok : BlockM :=
  { height := 6
    approvals := [some 77, some 88, none]
    chunks := [{ shard_id := 0, height_included := 6 }] }

/-- C1 witness: the theorem applied to the concrete environment. -/
theorem c1_produce_block_approvals_witness :
    block_ok.approvals.length = [(1, false), (2, false), (3, true)].length
    ∧ (compute_approvals [(1, false), (2, false), (3, true)] env_ok.get_witness).2 = [] := by
  have h := c1_produce_block_approvals 5 env_ok 6 block_ok
    [(1, false), (2, false), (3, true)] rfl rfl
  exact ⟨h.1, h.2.2.2 (by decide) (by decide)⟩

/-- C2 witness: the theorem applied to the concrete environment at an
already-known height. -/
theorem c2_produce_block_not_now_witness :
    produce_block 5 env_ok 3 = (.ok none, 5) :=
  (c2_produce_block_not_now 5 env_ok 3 1 1).1
    ⟨rfl, rfl, ⟨_, rfl⟩, rfl, ⟨_, rfl⟩, rfl⟩ (by decide)

/-- C6 witness: the theorem applied to the concrete environment. -/
theorem c6_latest_known_monotone_witness :
    (produce_block 5 env_ok 6).2 = 6 ∧ 5 < 6 :=
  (c6_latest_known_monotone 5 env_ok 6).1 block_ok rfl

/-- C3: produce_chunk answers Ok(None) when the local validator is not
the elected chunk producer, and Err(ChunkProducer) when the next block
starts an epoch whose previous-previous block is not caught up. -/
theorem c3_produce_chunk_preconditions (env : ProduceChunkEnv) (me : AccountId) :
    (env.validator_signer = some me → me ≠ env.get_chunk_producer →
      produce_chunk env = .ok none)
    ∧ (env.validator_signer = some me → me = env.get_chunk_producer →
      env.is_next_block_epoch_start = .ok true →
      (∃ prev, env.get_block_header = .ok prev) →
      env.prev_block_is_caught_up = .ok false →
      produce_chunk env = .error .chunkProducer) := by
  constructor
  · intro hs hne
    simp [produce_chunk, hs, hne]
  · intro hs heqp hstart hprev hcaught
    obtain ⟨prev, hh⟩ := hprev
    subst heqp
    simp [produce_chunk, hs, hstart, hh, hcaught]

/-- A produce_chunk environment where validator 1 is not the elected
chunk producer. -/
def chunk_env_not_mine : ProduceChunkEnv :=
  { validator_signer := some 1
    get_chunk_producer := 2
    is_next_block_epoch_start := .ok false
    get_block_header := .ok { height := 5, hash := 100, prev_hash := 99,
                              epoch_id := 7, next_bp_hash := 55, last_final_block := 0 }
    prev_block_is_caught_up := .ok true
    shard_id_to_uid := .ok 0
    get_chunk_extra := .ok ()
    prepare_transactions := .ok []
    get_outgoing_receipts_for_shard := .ok []
    get_shard_layout := .ok ()
    get_epoch_protocol_version := .ok 50
    create_encoded_shard_chunk := .ok () }

/-- A produce_chunk environment crossing an epoch boundary whose
previous-previous block is not caught up. -/
def chunk_env_not_caught_up : ProduceChunkEnv :=
  { chunk_env_not_mine with
    get_chunk_producer := 1
    is_next_block_epoch_start := .ok true
    prev_block_is_caught_up := .ok false }

/-- C3 witness: the theorem applied to the two concrete environments. -/
theorem c3_produce_chunk_preconditions_witness :
    produce_chunk chunk_env_not_mine = .ok none
    ∧ produce_chunk chunk_env_not_caught_up = .error .chunkProducer :=
  ⟨(c3_produce_chunk_preconditions chunk_env_not_mine 1).1 rfl (by decide),
   (c3_produce_chunk_preconditions chunk_env_not_caught_up 1).2 rfl rfl rfl ⟨_, rfl⟩ rfl⟩

/-- C4 helper: the approval's parent hash was resolved (an endorsement
carries it; a skip finds the header at that height). -/
def parent_hash_resolved (env : CollectApprovalEnv) (approval : ApprovalM) : Prop :=
  (∃ ph, approval.inner = .endorsement ph)
  ∨ (∃ hgt, approval.inner = .skip hgt ∧ ∃ ph, env.get_block_header_by_height = .ok ph)

/-- C4: a peer approval is verified under the epoch of the next block
after parent_hash; only a NotAValidator failure of the validator lookup
switches verification to the epoch after that; any other lookup failure,
or a failed signature verification under the chosen epoch, drops the
approval before Doomslug. -/
theorem c4_collect_approval_epoch_fallback (env : CollectApprovalEnv)
    (approval : ApprovalM) (E E2 : EpochId) :
    (parent_hash_resolved env approval →
      env.get_epoch_id_from_prev_block = .ok E →
      env.get_validator_by_account_id = .ok () →
      (collect_block_approval env approval .peerApproval).2 = some E)
    ∧ (parent_hash_resolved env approval →
      env.get_epoch_id_from_prev_block = .ok E →
      env.get_validator_by_account_id = .error .notAValidator →
      env.get_next_epoch_id_from_prev_block = .ok E2 →
      (collect_block_approval env approval .peerApproval).2 = some E2)
    ∧ (∀ err, parent_hash_resolved env approval →
      env.get_epoch_id_from_prev_block = .ok E →
      env.get_validator_by_account_id = .error err → err ≠ .notAValidator →
      collect_block_approval env approval .peerApproval = (.dropped, none))
    ∧ (parent_hash_resolved env approval →
      env.get_epoch_id_from_prev_block = .ok E →
      env.get_validator_by_account_id = .error .notAValidator →
      env.get_next_epoch_id_from_prev_block = .error .dbNotFound →
      collect_block_approval env approval .peerApproval = (.dropped, none))
    ∧ (parent_hash_resolved env approval →
      env.get_epoch_id_from_prev_block = .ok E →
      env.get_validator_by_account_id = .ok () →
      env.verify_validator_signature E ≠ .ok true →
      collect_block_approval env approval .peerApproval = (.dropped, some E))
    ∧ (parent_hash_resolved env approval →
      env.get_epoch_id_from_prev_block = .ok E →
      env.get_validator_by_account_id = .error .notAValidator →
      env.get_next_epoch_id_from_prev_block = .ok E2 →
      env.verify_validator_signature E2 ≠ .ok true →
      collect_block_approval env approval .peerApproval = (.dropped, some E2)) := by
  have resolve : parent_hash_resolved env approval →
      ∃ ph, (match approval.inner with
        | .endorsement parent_hash => (.ok parent_hash :
            Except (ApprovalOutcome × Option EpochId) Hash)
        | .skip _ =>
          match env.get_block_header_by_height with
          | .ok hash => .ok hash
          | .error e => .error (handle_process_approval_error env true e, none)) = .ok ph := by
    intro hres
    rcases hres with ⟨ph, hinner⟩ | ⟨hgt, hinner, ph, hheight⟩
    · exact ⟨ph, by simp [hinner]⟩
    · exact ⟨ph, by simp [hinner, hheight]⟩
  refine ⟨?_, ?_, ?_, ?_, ?_, ?_⟩
  · intro hres hepoch hv
    obtain ⟨ph, hph⟩ := resolve hres
    simp only [collect_block_approval, hph, hepoch, hv]
    cases hverify : env.verify_validator_signature E with
    | error e => simp [hverify]
    | ok bv =>
      cases bv
      · simp [hverify]
      · simp only [hverify]
        split <;> (try split) <;> simp
  · intro hres hepoch hv hnext
    obtain ⟨ph, hph⟩ := resolve hres
    simp only [collect_block_approval, hph, hepoch, hv, hnext]
    cases hverify : env.verify_validator_signature E2 with
    | error e => simp [hverify]
    | ok bv =>
      cases bv
      · simp [hverify]
      · simp only [hverify]
        split <;> (try split) <;> simp
  · intro err hres hepoch hv hne
    obtain ⟨ph, hph⟩ := resolve hres
    cases err with
    | notAValidator => exact absurd rfl hne
    | dbNotFound => simp [collect_block_approval, hph, hepoch, hv]
    | other c => simp [collect_block_approval, hph, hepoch, hv]
  · intro hres hepoch hv hnext
    obtain ⟨ph, hph⟩ := resolve hres
    simp [collect_block_approval, hph, hepoch, hv, hnext]
  · intro hres hepoch hv hverify
    obtain ⟨ph, hph⟩ := resolve hres
    -- simp discharges the catch-all side condition of the verification
    -- match with hverify, reducing the call to the dropped outcome
    simp only [collect_block_approval, hph, hepoch, hv]
  · intro hres hepoch hv hnext hverify
    obtain ⟨ph, hph⟩ := resolve hres
    simp only [collect_block_approval, hph, hepoch, hv, hnext]

/-- A collect_block_approval environment where the signer is not a
validator of the next block's epoch (epoch 3) and the fallback epoch is
4. -/
def approval_env_fallback : CollectApprovalEnv :=
  { get_block_header_by_height := .ok 1
    get_epoch_id_from_prev_block := .ok 3
    get_validator_by_account_id := .error .notAValidator
    get_next_epoch_id_from_prev_block := .ok 4
    verify_validator_signature := fun _ => .ok true
    get_block_producer := .ok 9
    me := some 9
    get_block_header := .ok ()
    get_epoch_block_approvers_ordered := .ok []
    head_ok := true
    is_validator_head_epoch := true
    is_validator_head_next_epoch := true }

/-- A concrete endorsement approval. -/
def approval_ex : ApprovalM :=
  { inner := .endorsement 1, target_height := 10, account_id := 2, signature := 5 }

/-- C4 witness: the theorem applied to the concrete environment - the
signature of a NotAValidator signer is verified under the fallback
epoch. -/
theorem c4_collect_approval_epoch_fallback_witness :
    (collect_block_approval approval_env_fallback approval_ex .peerApproval).2 = some 4 :=
  (c4_collect_approval_epoch_fallback approval_env_fallback approval_ex 3 4).2.1
    (Or.inl ⟨1, rfl⟩) rfl rfl rfl

/-- C7 counterexample: a forwarded transaction that fails the
validity-period check on a node that does not track its shard gets
InvalidTx, not NoResponse, refuting the claim as universally stated. -/
def tx_env_invalid : ProcessTxEnv :=
  { head_ok := true
    check_transaction_validity_period := some 42
    validate_tx_basic := none
    get_epoch_id_from_prev_block := .ok 7
    get_epoch_protocol_version := .ok 50
    account_id_to_shard_id := .ok 0
    cares_about_shard := false
    will_care_about_shard := false
    shard_id_to_uid := .ok 0
    get_chunk_extra := none
    validate_tx_full := none
    active_validator := .ok false
    forward_tx := .ok []
    possibly_forward_tx_to_next_epoch := .ok [] }

/-- C7 counterexample theorem: on this untracked-shard node,
process_tx(tx, is_forwarded=true, check_only=false) answers
InvalidTx(42), not NoResponse (though still with no network request). -/
theorem c7_forwarded_untracked_counterexample :
    process_tx tx_env_invalid true false = (.invalidTx 42, [])
    ∧ (ProcessTxResponse.invalidTx 42 ≠ ProcessTxResponse.noResponse) := by
  exact ⟨rfl, by decide⟩

/-- C7 helper: the wrapper keeps the emitted network requests of the
internal call. -/
theorem process_tx_snd (env : ProcessTxEnv) (is_forwarded check_only : Bool) :
    (process_tx env is_forwarded check_only).2 =
      (process_tx_internal env is_forwarded check_only).2 := by
  unfold process_tx
  rcases h : process_tx_internal env is_forwarded check_only with ⟨r | e, msgs⟩ <;> simp

/-- C7 (amended): on a node that neither cares about nor will care about
the transaction's shard, process_tx(tx, is_forwarded=true,
check_only=false) returns NoResponse provided the transaction passes the
initial validity checks (otherwise it returns InvalidTx), and in every
case it emits no network request. -/
theorem c7_forwarded_untracked_no_response (env : ProcessTxEnv) :
    (env.cares_about_shard = false → env.will_care_about_shard = false →
      env.head_ok = true →
      env.check_transaction_validity_period = none →
      (∃ eid, env.get_epoch_id_from_prev_block = .ok eid) →
      (∃ pv, env.get_epoch_protocol_version = .ok pv) →
      env.validate_tx_basic = none →
      (∃ sid, env.account_id_to_shard_id = .ok sid) →
      process_tx env true false = (.noResponse, []))
    ∧ (env.cares_about_shard = false → env.will_care_about_shard = false →
      (process_tx env true false).2 = []) := by
  constructor
  · intro hc hw hh hvp heid hpv hb hsid
    obtain ⟨eid, he⟩ := heid
    obtain ⟨pv, hp⟩ := hpv
    obtain ⟨sid, hs⟩ := hsid
    simp [process_tx, process_tx_internal, hc, hw, hh, hvp, he, hp, hb, hs]
  · intro hc hw
    rw [process_tx_snd]
    simp only [process_tx_internal, hc, hw, Bool.or_self]
    repeat' split
    all_goals first
      | rfl
      | simp_all

/-- A valid forwarded transaction on an untracked-shard node. -/
def tx_env_forwarded : ProcessTxEnv :=
  { tx_env_invalid with check_transaction_validity_period := none }

/-- C7 witness: the amended theorem applied to the concrete
environment. -/
theorem c7_forwarded_untracked_no_response_witness :
    process_tx tx_env_forwarded true false = (.noResponse, []) :=
  (c7_forwarded_untracked_no_response tx_env_forwarded).1
    rfl rfl rfl rfl ⟨7, rfl⟩ ⟨50, rfl⟩ rfl ⟨0, rfl⟩

/-- Bytes helper: from_le_bytes on a cons. -/
theorem from_le_bytes_cons (b : Nat) (rest : Bytes) :
    from_le_bytes (b :: rest) = b + 256 * from_le_bytes rest := rfl

/-- Bytes helper: digit i of a little-endian byte string is its i-th
byte. -/
theorem from_le_bytes_digit (key : Bytes) (hb : ∀ b ∈ key, b < 256) :
    ∀ (i : Nat) (hi : i < key.length), from_le_bytes key / 256 ^ i % 256 = key[i] := by
  induction key with
  | nil => intro i hi; simp at hi
  | cons b rest ih =>
    intro i hi
    match i with
    | 0 =>
      simp only [pow_zero, Nat.div_one, from_le_bytes_cons]
      rw [Nat.add_mul_mod_self_left]
      exact Nat.mod_eq_of_lt (hb b (List.mem_cons_self _ _))
    | i + 1 =>
      have hdiv : from_le_bytes (b :: rest) / 256 ^ (i + 1) =
          from_le_bytes rest / 256 ^ i := by
        rw [from_le_bytes_cons, pow_succ']
        rw [← Nat.div_div_eq_div_mul]
        congr 1
        rw [Nat.add_mul_div_left _ _ (by omega : 0 < 256)]
        rw [Nat.div_eq_of_lt (hb b (List.mem_cons_self _ _))]
        omega
      rw [hdiv]
      have := ih (fun x hx => hb x (List.mem_cons_of_mem _ hx)) i (by simpa using hi)
      simpa using this

/-- Bytes helper: to_le_bytes always has eight bytes. -/
theorem to_le_bytes_length (n : Nat) : (to_le_bytes n).length = 8 := by
  simp [to_le_bytes]

/-- Bytes helper: an 8-byte little-endian string round-trips through
u64. -/
theorem to_le_from_le (key : Bytes) (h8 : key.length = 8)
    (hb : ∀ b ∈ key, b < 256) : to_le_bytes (from_le_bytes key) = key := by
  apply List.ext_getElem
  · rw [to_le_bytes_length, h8]
  · intro i h1 h2
    have hi8 : i < 8 := by rw [to_le_bytes_length] at h1; exact h1
    simp only [to_le_bytes, List.getElem_map, List.getElem_range]
    exact from_le_bytes_digit key hb i h2

/-- C9 helper: for the height-keyed columns the cold key is the byte
reversal of the 8-byte little-endian hot key, i.e. the same height
big-endian. -/
theorem get_cold_key_height (col : DBCol) (key : Bytes)
    (hcol : col = .BlockHeight ∨ col = .BlockPerHeight ∨ col = .ChunkHashesByHeight
      ∨ col = .ProcessedBlockHeights ∨ col = .HeaderHashesByHeight)
    (h8 : key.length = 8) (hb : ∀ b ∈ key, b < 256) :
    get_cold_key col key = some key.reverse := by
  have hrt : to_be_bytes (from_le_bytes key) = key.reverse := by
    rw [to_be_bytes, to_le_from_le key h8 hb]
  rcases hcol with rfl | rfl | rfl | rfl | rfl <;> simp [get_cold_key, hrt]

/-- Refcount helper: stripping a value whose trailing 8 bytes encode the
count keeps the bare value iff the count is positive. -/
theorem strip_refcount_append (data rc8 : Bytes) (h8 : rc8.length = 8) :
    strip_refcount (data ++ rc8) = if 0 < i64_of_le rc8 then some data else none := by
  have hlen : (data ++ rc8).length = data.length + 8 := by simp [h8]
  have hdrop : (data ++ rc8).drop ((data ++ rc8).length - 8) = rc8 := by
    rw [hlen, Nat.add_sub_cancel]
    exact List.drop_left' rfl
  have htake : (data ++ rc8).take ((data ++ rc8).length - 8) = data := by
    rw [hlen, Nat.add_sub_cancel]
    exact List.take_left' rfl
  unfold strip_refcount
  rw [hdrop, htake, hlen]
  by_cases hpos : 0 < i64_of_le rc8
  · rw [if_pos ⟨by omega, hpos⟩, if_pos hpos]
  · rw [if_neg (fun hc => hpos hc.2), if_neg hpos]

/-- swap_remove helper: explicit take/set form. -/
theorem swap_remove_eq {ops : List DBOp} {idx : Nat} (hne : ops ≠ []) :
    swap_remove ops idx = (ops.set idx (ops.getLast hne)).take (ops.length - 1) := by
  unfold swap_remove
  rw [List.getLast?_eq_getLast ops hne]
  simp only [List.dropLast_eq_take, List.length_set]

/-- swap_remove helper: the processed part is unchanged. -/
theorem swap_remove_take {ops : List DBOp} {idx : Nat} (h : idx < ops.length) :
    (swap_remove ops idx).take idx = ops.take idx := by
  have hne : ops ≠ [] := by
    intro he
    subst he
    simp at h
  rw [swap_remove_eq hne, List.take_take]
  have hmin : min idx (ops.length - 1) = idx := by omega
  rw [hmin, List.set_eq_take_cons_drop _ h, List.take_left']
  rw [List.length_take_of_le (by omega)]

/-- swap_remove helper: the pending part's shape. -/
theorem swap_remove_drop {ops : List DBOp} {idx : Nat} (h : idx < ops.length)
    (hne : ops ≠ []) :
    (swap_remove ops idx).drop idx =
      (ops.getLast hne :: ops.drop (idx + 1)).take (ops.length - 1 - idx) := by
  rw [swap_remove_eq hne, List.drop_take]
  congr 1
  rw [List.set_eq_take_cons_drop _ h, List.drop_left']
  rw [List.length_take_of_le (by omega)]

/-- swap_remove helper: dropping an operation that adjust_op rejects
keeps the pending adjusted operations, up to permutation. -/
theorem swap_remove_filterMap_perm {ops : List DBOp} {idx : Nat} (h : idx < ops.length)
    (hnone : adjust_op ops[idx] = none) :
    (((swap_remove ops idx).drop idx).filterMap adjust_op).Perm
      ((ops.drop idx).filterMap adjust_op) := by
  have hne : ops ≠ [] := by
    intro he
    subst he
    simp at h
  rw [swap_remove_drop h hne]
  rw [List.drop_eq_getElem_cons h]
  rw [List.filterMap_cons_none hnone]
  by_cases hcase : ops.length - 1 - idx = 0
  · rw [hcase]
    have hdrop : ops.drop (idx + 1) = [] := List.drop_eq_nil_of_le (by omega)
    rw [hdrop]
    simp
  · have hk : ops.length - 1 - idx = (ops.length - idx - 2) + 1 := by omega
    rw [hk, List.take_succ_cons]
    have hXne : ops.drop (idx + 1) ≠ [] := by
      have : (ops.drop (idx + 1)).length = ops.length - (idx + 1) := List.length_drop _ _
      intro he
      rw [he] at this
      simp at this
      omega
    have hX : (ops.drop (idx + 1)).take (ops.length - idx - 2) =
        (ops.drop (idx + 1)).dropLast := by
      rw [List.dropLast_eq_take, List.length_drop]
      congr 1
    rw [hX]
    have hlast : (ops.drop (idx + 1)).getLast hXne = ops.getLast hne :=
      List.getLast_drop hXne
    conv_rhs => rw [← List.dropLast_append_getLast hXne]
    rw [hlast]
    rw [show (ops.getLast hne :: (ops.drop (idx + 1)).dropLast) =
      [ops.getLast hne] ++ (ops.drop (idx + 1)).dropLast from rfl]
    rw [List.filterMap_append, List.filterMap_append]
    exact List.perm_append_comm

/-- set helper: the processed prefix after an in-place adjustment. -/
theorem set_take_succ {ops : List DBOp} {idx : Nat} (h : idx < ops.length) (a : DBOp) :
    (ops.set idx a).take (idx + 1) = ops.take idx ++ [a] := by
  rw [List.set_eq_take_cons_drop _ h]
  have hlen : (ops.take idx).length = idx := List.length_take_of_le (by omega)
  calc (ops.take idx ++ a :: ops.drop (idx + 1)).take (idx + 1)
      = (ops.take idx ++ a :: ops.drop (idx + 1)).take ((ops.take idx).length + 1) := by
        rw [hlen]
    _ = ops.take idx ++ (a :: ops.drop (idx + 1)).take 1 := List.take_append 1
    _ = ops.take idx ++ [a] := by simp

/-- set helper: the pending suffix after an in-place adjustment. -/
theorem set_drop_succ {ops : List DBOp} {idx : Nat} (h : idx < ops.length) (a : DBOp) :
    (ops.set idx a).drop (idx + 1) = ops.drop (idx + 1) := by
  rw [List.set_eq_take_cons_drop _ h]
  have hlen : (ops.take idx).length = idx := List.length_take_of_le (by omega)
  calc (ops.take idx ++ a :: ops.drop (idx + 1)).drop (idx + 1)
      = (ops.take idx ++ a :: ops.drop (idx + 1)).drop ((ops.take idx).length + 1) := by
        rw [hlen]
    _ = (a :: ops.drop (idx + 1)).drop 1 := List.drop_append 1
    _ = ops.drop (idx + 1) := by simp

/-- The while loop of ColdDB::write keeps, up to permutation, exactly
the adjusted forms of the operations adjust_op accepts. -/
theorem adjust_ops_perm (ops : List DBOp) (idx : Nat) (h : idx ≤ ops.length) :
    (adjust_ops ops idx).Perm
      (ops.take idx ++ (ops.drop idx).filterMap adjust_op) := by
  induction ops, idx using adjust_ops.induct with
  | case1 ops idx hlt op' heq ih =>
    rw [adjust_ops, dif_pos hlt, heq]
    have hih := ih (by rw [List.length_set]; omega)
    refine hih.trans ?_
    rw [set_take_succ hlt, set_drop_succ hlt]
    rw [List.drop_eq_getElem_cons hlt, List.filterMap_cons_some heq]
    simp
  | case2 ops idx hlt heq ih =>
    have hne : ops ≠ [] := by
      intro he
      subst he
      simp at hlt
    rw [adjust_ops, dif_pos hlt, heq]
    have hlen : (swap_remove ops idx).length = ops.length - 1 :=
      swap_remove_length ops idx hne
    have hih := ih (by omega)
    refine hih.trans ?_
    rw [swap_remove_take hlt]
    exact (swap_remove_filterMap_perm hlt heq).append_left _
  | case3 ops idx hge =>
    rw [adjust_ops, dif_neg hge]
    have hidx : idx = ops.length := by omega
    subst hidx
    simp

/-- C10 helper: operations accepted by adjust_op are Set or Insert. -/
theorem adjust_op_shape (src op : DBOp) (h : adjust_op src = some op) :
    (∃ c k v, op = .set c k v) ∨ (∃ c k v, op = .insert c k v) := by
  cases src with
  | set c k v =>
    simp [adjust_op] at h
    exact Or.inl ⟨c, adjust_key c k, v, h.symm⟩
  | insert c k v =>
    simp [adjust_op] at h
    exact Or.inr ⟨c, adjust_key c k, v, h.symm⟩
  | updateRefcount c k v =>
    simp only [adjust_op] at h
    cases hs : strip_refcount v with
    | none => rw [hs] at h; simp at h
    | some v2 =>
      rw [hs] at h
      simp at h
      exact Or.inl ⟨c, k, v2, h.symm⟩
  | delete c k => simp [adjust_op] at h
  | deleteAll c => simp [adjust_op] at h

/-- C10: ColdDB::write sends to the cold database exactly the adjusted
Set / Insert operations of the transaction (up to order): an original
Set / Insert goes through with its key adjusted; an UpdateRefcount whose
trailing refcount is positive becomes a plain Set of the stripped value
and is dropped otherwise; Delete and DeleteAll are always dropped - so
every operation reaching cold storage is a Set or an Insert and nothing
is ever deleted through this interface. -/
theorem c10_cold_write_only_set_insert (db : ColdDBState) (ops : List DBOp) :
    (cold_write db ops).cold = (adjust_ops ops 0).foldl db_apply db.cold
    ∧ (adjust_ops ops 0).Perm (ops.filterMap adjust_op)
    ∧ (∀ op ∈ adjust_ops ops 0,
        (∃ c k v, op = .set c k v) ∨ (∃ c k v, op = .insert c k v))
    ∧ (∀ col key value,
        adjust_op (.set col key value) = some (.set col (adjust_key col key) value))
    ∧ (∀ col key value,
        adjust_op (.insert col key value) = some (.insert col (adjust_key col key) value))
    ∧ (∀ col key data rc8, rc8.length = 8 → 0 < i64_of_le rc8 →
        adjust_op (.updateRefcount col key (data ++ rc8)) = some (.set col key data))
    ∧ (∀ col key data rc8, rc8.length = 8 → i64_of_le rc8 ≤ 0 →
        adjust_op (.updateRefcount col key (data ++ rc8)) = none)
    ∧ (∀ col key, adjust_op (.delete col key) = none)
    ∧ (∀ col, adjust_op (.deleteAll col) = none) := by
  have hperm : (adjust_ops ops 0).Perm (ops.filterMap adjust_op) := by
    have := adjust_ops_perm ops 0 (by omega)
    simpa using this
  refine ⟨rfl, hperm, ?_, fun c k v => rfl, fun c k v => rfl, ?_, ?_,
    fun c k => rfl, fun c => rfl⟩
  · intro op hop
    have hmem : op ∈ ops.filterMap adjust_op := hperm.mem_iff.mp hop
    obtain ⟨src, _hsrc, hadj⟩ := List.mem_filterMap.mp hmem
    exact adjust_op_shape src op hadj
  · intro col key data rc8 h8 hpos
    simp only [adjust_op, strip_refcount_append data rc8 h8, if_pos hpos]
  · intro col key data rc8 h8 hneg
    simp only [adjust_op, strip_refcount_append data rc8 h8,
      if_neg (by omega : ¬ 0 < i64_of_le rc8)]

/-- The loop of ColdDB::write from the start of a transaction. -/
theorem adjust_ops_zero_perm (ops : List DBOp) :
    (adjust_ops ops 0).Perm (ops.filterMap adjust_op) := by
  simpa using adjust_ops_perm ops 0 (by omega)

/-- Evaluation of the write loop on a one-operation transaction. -/
theorem adjust_ops_singleton (op op' : DBOp) (h : [op].filterMap adjust_op = [op']) :
    adjust_ops [op] 0 = [op'] := by
  have hperm := adjust_ops_zero_perm [op]
  rw [h] at hperm
  exact List.Perm.eq_singleton hperm

/-- A height key, 42 little-endian. -/
def height_le_key : Bytes := [42, 0, 0, 0, 0, 0, 0, 0]

/-- The same height big-endian. -/
def height_be_key : Bytes := [0, 0, 0, 0, 0, 0, 0, 42]

/-- An 8-byte ShardUId. -/
def shard_uid_bytes : Bytes := [1, 0, 0, 0, 0, 0, 0, 0]

/-- A 32-byte hash. -/
def hash32 : Bytes := List.replicate 32 7

/-- A hot-storage State key: ShardUId followed by the hash. -/
def state_hot_key : Bytes := shard_uid_bytes ++ hash32

/-- C9: the adapter's key and value transformations, evaluated.  The
height-keyed BlockHeight key is rewritten little- to big-endian; the
State key loses its 8-byte ShardUId; an UpdateRefcount write to the
refcounted Transactions column stores the value stripped of its count
and a get_raw_bytes read returns it with a refcount of one appended.
The last conjunct exhibits the State divergence: adjust_op rewrites an
UpdateRefcount into a Set without adjusting its key, so a State value
written under its hot key lands under the 40-byte prefixed key and the
read of the same key (which strips the prefix) misses, returning none
instead of the value with refcount 1 the claim describes. -/
theorem c9_colddb_key_value_transforms :
    get_cold_key .BlockHeight height_le_key = some height_be_key
    ∧ get_cold_key .State state_hot_key = some hash32
    ∧ cold_get_raw_bytes
        (cold_write { hot := [], cold := [] }
          [.updateRefcount .Transactions [3] ([9, 9] ++ ONE)])
        .Transactions [3] = some ([9, 9] ++ ONE)
    ∧ cold_get_raw_bytes
        (cold_write { hot := [], cold := [] }
          [.updateRefcount .State state_hot_key ([9, 9] ++ ONE)])
        .State state_hot_key = none := by
  have htx : adjust_ops [DBOp.updateRefcount .Transactions [3] ([9, 9] ++ ONE)] 0
      = [DBOp.set .Transactions [3] [9, 9]] :=
    adjust_ops_singleton _ _ (by decide)
  have hstate : adjust_ops [DBOp.updateRefcount .State state_hot_key ([9, 9] ++ ONE)] 0
      = [DBOp.set .State state_hot_key [9, 9]] :=
    adjust_ops_singleton _ _ (by decide)
  refine ⟨by decide, by decide, ?_, ?_⟩
  · simp only [cold_write, htx]
    decide
  · simp only [cold_write, hstate]
    decide

/-- A concrete transaction exercising every operation kind. -/
def ops_mixed : List DBOp :=
  [.set .Block [1] [2],
   .delete .Block [1],
   .updateRefcount .Transactions [3] ([5] ++ ONE),
   .deleteAll .State]

/-- C10 witness: the theorem applied to the concrete transaction. -/
theorem c10_cold_write_only_set_insert_witness :
    (adjust_ops ops_mixed 0).Perm (ops_mixed.filterMap adjust_op)
    ∧ adjust_op (.updateRefcount .Transactions [3] ([5] ++ ONE)) =
        some (.set .Transactions [3] [5])
    ∧ adjust_op (.delete .Block [1]) = none := by
  refine ⟨(c10_cold_write_only_set_insert ⟨[], []⟩ ops_mixed).2.1, ?_, ?_⟩
  · exact (c10_cold_write_only_set_insert ⟨[], []⟩ ops_mixed).2.2.2.2.2.1
      .Transactions [3] [5] ONE (by decide) (by decide)
  · exact (c10_cold_write_only_set_insert ⟨[], []⟩ ops_mixed).2.2.2.2.2.2.2.1 .Block [1]

end Near
